import Mathlib

/-!
Verification development for the SHOWROOM event-viewer application
(`src/app.py`): a shallow embedding of its timestamp normalizer
(`fmt_time` / `parse_to_ts`), lifecycle classifier (`is_ongoing`),
roster pager (`fetch_all_pages_entries` with the retrying
`http_get_json`), per-event record builder (`process_event_full`) and
the snapshot merge / prune logic of the database-update handler
(update loop, `keep_row`, sort and counts), together with theorems
about the specified properties.

Machine integers are modelled as `Int`; the Python floor division `//`
on non-negative operands coincides with `Int` division `/` (`ediv`)
used here.  The `Asia/Tokyo` zone is modelled as the fixed offset
UTC+9 (32400 s), which is exact for every timestamp from 1888 onward;
all inputs considered by the claims lie far inside that range.
-/

set_option maxHeartbeats 4000000

namespace SrEvent

/-! ### Proleptic Gregorian calendar

`datetime.fromtimestamp` / `strftime` / `strptime` convert between
epoch days and civil dates on the proleptic Gregorian calendar.  The
conversion pair below is the standard era-based algorithm; it is a
faithful model of the calendar mapping used by the Python `datetime`
library. -/

/-- Day offset of a year-of-era `yoe` (0..399) from the start of its
400-year era: 365 days per year plus the leap days. -/
def encYoe (yoe : Int) : Int := 365 * yoe + yoe / 4 - yoe / 100

/-- Year-of-era (0..399) containing day-of-era `doe` (0..146096). -/
def yoeOf (doe : Int) : Int :=
  (doe - doe / 1460 + doe / 36524 - doe / 146096) / 365

/-- Civil date `(year, month, day)` of the day `z` counted from the
Unix epoch (1970-01-01). -/
def civilFromDays (z : Int) : Int × Int × Int :=
  let zs := z + 719468
  let era := zs / 146097
  let doe := zs - era * 146097
  let yoe := yoeOf doe
  let y := yoe + era * 400
  let doy := doe - encYoe yoe
  let mp := (5 * doy + 2) / 153
  let d := doy - (153 * mp + 2) / 5 + 1
  let m := mp + (if mp < 10 then 3 else -9)
  (if m ≤ 2 then y + 1 else y, m, d)

/-- Day count from the Unix epoch of the civil date `(y, m, d)`. -/
def daysFromCivil (y m d : Int) : Int :=
  let ys := y - (if m ≤ 2 then 1 else 0)
  let era := ys / 400
  let yoe := ys - era * 400
  let doy := (153 * (m + (if m > 2 then -3 else 9)) + 2) / 5 + d - 1
  let doe := yoe * 365 + yoe / 4 - yoe / 100 + doy
  era * 146097 + doe - 719468

/-! ### Timestamp values

Inputs of `fmt_time` / `parse_to_ts` (app.py lines 61-110) are Python
values: `None` / NaN, numbers (or numeric-looking strings), strings
that `strptime` accepts as `"%Y/%m/%d %H:%M"` or as `"%Y/%m/%d"`, the
empty string, and other strings.  They are modelled structurally: a
formatted string is carried as its parsed fields (re-rendering with
the same format only normalises zero padding), `tnum n` models both a
number and a numeric string (`int(float(v))` is exact on the integer
inputs considered), and `traw s hasSlash` models any other string
together with whether it contains a `/`. -/

inductive TVal where
  | tnone : TVal
  | tempty : TVal
  | tnum (n : Int) : TVal
  | tdt (y m d hh mm : Int) : TVal
  | tdate (y m d : Int) : TVal
  | traw (s : String) (hasSlash : Bool) : TVal
deriving DecidableEq, Repr

/-- Fixed UTC offset of the `Asia/Tokyo` zone (+9 h). -/
def jstOffset : Int := 32400

/-- Smallest civil second representable by `datetime` (0001-01-01 00:00). -/
def minCivilSec : Int := -62135596800

/-- Largest civil second representable by `datetime` (9999-12-31 23:59:59). -/
def maxCivilSec : Int := 253402300799

/-- Model of `fmt_time` (app.py lines 61-85).  A `None`/NaN/empty input
gives `""`; a string containing `/` is re-rendered if it parses in one
of the two formats (a date-only string gets time `00:00`) and returned
unchanged otherwise; any other non-numeric string falls into the
numeric branch whose exception handler yields `""`.  A numeric value is
epoch seconds, halved out of milliseconds above `20000000000`, and
rendered as `"%Y/%m/%d %H:%M"` in JST (`datetime.fromtimestamp` raises
outside the year range 1..9999, caught as `""`); rendering truncates
the seconds. -/
def fmt_time : TVal → TVal
  | .tnone => .tempty
  | .tempty => .tempty
  | .tdt y m d hh mm => .tdt y m d hh mm
  | .tdate y m d => .tdt y m d 0 0
  | .traw s hs => if hs then .traw s hs else .tempty
  | .tnum n =>
      let t := if n > 20000000000 then n / 1000 else n
      let c := t + jstOffset
      if c < minCivilSec ∨ c > maxCivilSec then .tempty
      else
        match civilFromDays (c / 86400) with
        | (y, m, d) => .tdt y m d ((c % 86400) / 3600) (((c % 86400) % 3600) / 60)

/-- Model of `parse_to_ts` (app.py lines 88-110).  `None` and `""` give
`None`; a numeric value is epoch seconds, halved out of milliseconds
above `20000000000`; otherwise the string is parsed as
`"%Y/%m/%d %H:%M"`, then as `"%Y/%m/%d"` (midnight), localised to JST
(fixed +9 h) and converted to an epoch; anything else gives `None`. -/
def parse_to_ts : TVal → Option Int
  | .tnone => none
  | .tempty => none
  | .tnum n => some (if n > 20000000000 then n / 1000 else n)
  | .tdt y m d hh mm =>
      some (daysFromCivil y m d * 86400 + hh * 3600 + mm * 60 - jstOffset)
  | .tdate y m d => some (daysFromCivil y m d * 86400 - jstOffset)
  | .traw _ _ => none

/-- End-timestamp column of the viewer: the raw cell is rendered with
`fmt_time` and re-parsed with `parse_to_ts` (app.py lines 431-434 and
1185-1188: the frame stores the `fmt_time` output and derives
`__end_ts` from it). -/
def end_ts (v : TVal) : Option Int := parse_to_ts (fmt_time v)

/-- Model of the ongoing predicate (app.py line 444, identical at line
1198): `lambda x: pd.notna(x) and x > now_ts - 3600` applied to the
`__end_ts` column, with `None` as the NaN of a failed parse. -/
def is_ongoing (x : Option Int) (now_ts : Int) : Bool :=
  match x with
  | some t => decide (t > now_ts - 3600)
  | none => false

/-! ### API payload values -/

/-- Python scalar values appearing in API payloads and dataframe
cells: a string, an integer, or `None` (also standing for a missing
key, which the `or`-default chains make indistinguishable). -/
inductive RVal where
  | vs (s : String) : RVal
  | vi (n : Int) : RVal
  | vnone : RVal
deriving DecidableEq, Repr

/-- Python truthiness of a scalar: `""`, `0` and `None` are falsy. -/
def RVal.truthy : RVal → Bool
  | .vs s => s != ""
  | .vi n => n != 0
  | .vnone => false

/-- Model of Python `a or b`. -/
def RVal.orDefault (a b : RVal) : RVal := if a.truthy then a else b

/-- Model of Python `str(v)`. -/
def RVal.render : RVal → String
  | .vs s => s
  | .vi n => toString n
  | .vnone => "None"

/-- One roster entry of the `room_list` API: the fields read by the
code.  `roomId` carries `str(e.get("room_id"))`; `eventEntry` is the
optional `event_entry` sub-dict holding its own `quest_level`. -/
structure Entry where
  roomId : String
  roomName : RVal
  accountId : RVal
  rank : RVal
  position : RVal
  point : RVal
  totalPoint : RVal
  questLevel : RVal
  eventEntry : Option RVal
deriving DecidableEq, Repr

/-- Event-level fields of the `event` object of the `contribution_ranking` API
response read by the code. -/
structure Detail where
  eventName : RVal
  startedAt : TVal
  endedAt : TVal
  eventUrl : RVal
  image : RVal
deriving DecidableEq, Repr

/-- One page of the `room_list` API as consumed by the pager:
`data["list"]`, `data.get("next_page")`, `data.get("current_page")`
and `data.get("last_page")`. -/
structure Page where
  entries : List Entry
  nextPage : RVal
  currentPage : RVal
  lastPage : RVal
deriving DecidableEq, Repr

/-- Outcome of one `requests.get` attempt. -/
inductive HttpAttempt (α : Type) where
  | ok (a : α) : HttpAttempt α
  | gone : HttpAttempt α
  | rateLimited : HttpAttempt α
  | otherStatus : HttpAttempt α
  | failed : HttpAttempt α

/-- Model of the admin-scope `http_get_json` (app.py lines 577-590):
`for i in range(retries)`, a 200 returns the body, a 404/410 returns
`None`, a 429 sleeps and retries, any other status or a raised
exception falls through to the next attempt, and exhausting the loop
returns `None`.  `resp i` is the outcome of attempt `i`; the remaining
iteration count is the second argument (`retries = 3` at every call
site). -/
def http_get_json {α : Type} (resp : Nat → HttpAttempt α) : Nat → Nat → Option α
  | _, 0 => none
  | i, n + 1 =>
    match resp i with
    | .ok a => some a
    | .gone => none
    | .rateLimited => http_get_json resp (i + 1) n
    | .otherStatus => http_get_json resp (i + 1) n
    | .failed => http_get_json resp (i + 1) n

/-- Roster-page lookup as the pager sees it: `http_get_json` with 3
retries followed by the `not data or "list" not in data` check; a 200
body that is falsy or lacks `"list"` is carried as `ok none`. -/
def roster_page {α : Type} (attempts : Nat → HttpAttempt (Option α)) : Option α :=
  match http_get_json attempts 0 3 with
  | none => none
  | some j => j

/-! ### Roster pager -/

/-- Model of `fetch_all_pages_entries` (app.py lines 677-712).  The
page counter starts at 1; `rosterF page` is the post-retry result of
the page request (`None` models both a failed fetch and a body
without `"list"`).  The loop breaks on a missing page, on a repeated
page number (`seen_pages`), and after accumulating a page when
`next_page` is falsy or `str(current_page) == str(last_page)`;
otherwise it continues with `page + 1`.  The filter is applied
per-page when truthy (a `None` filter and an empty filter both mean
no filtering).  The source loop is `while True`; the model takes the
iteration count as fuel and yields `none` when the loop is still
running after that many page requests. -/
def fetch_all_pages_entries (rosterF : Nat → Option Page)
    (filterIds : Option (List String)) :
    Nat → Nat → List Nat → List Entry → Option (List Entry)
  | 0, _, _, _ => none
  | fuel + 1, page, seen, entries =>
    match rosterF page with
    | none => some entries
    | some pg =>
        if page ∈ seen then some entries
        else
          let seen2 := page :: seen
          let pageEntries :=
            match filterIds with
            | some fs =>
                if fs.isEmpty then pg.entries
                else pg.entries.filter (fun e => fs.contains e.roomId)
            | none => pg.entries
          let entries2 := entries ++ pageEntries
          if !pg.nextPage.truthy || pg.currentPage.render == pg.lastPage.render
          then some entries2
          else fetch_all_pages_entries rosterF filterIds fuel (page + 1) seen2 entries2

/-! ### Record construction -/

/-- One row of the event database.  Column names of the CSV:
`PR対象, ライバー名, アカウントID, イベント名, 開始日時, 終了日時,
順位, ポイント, 備考, 紐付け, URL, レベル, event_id, ルームID,
イベント画像（URL）`.  The two key columns are carried as strings
(`astype(str)` is applied to both sides before the merge). -/
structure Rec where
  prTarget : RVal
  liverName : RVal
  accountId : RVal
  eventName : RVal
  startTime : TVal
  endTime : TVal
  rank : RVal
  point : RVal
  note : RVal
  linked : RVal
  url : RVal
  level : RVal
  eventId : String
  roomId : String
  image : RVal
deriving DecidableEq, Repr

/-- Quest level of an entry (app.py line 746): the `event_entry`
field `quest_level` of the sub-dict when `event_entry` is a dict, otherwise
`e.get("quest_level") or 0`. -/
def quest_of (e : Entry) : RVal :=
  match e.eventEntry with
  | some q => q
  | none => e.questLevel.orDefault (.vi 0)

/-- Record built from one roster entry (app.py lines 742-764).
`detailF` is the per-room detail lookup (the `details` dict:
`contribution_ranking` through `http_get_json`, kept only when the
body is a dict containing `"event"`).  The admin-scope `fmt_time`
(lines 611-619) rendering `started_at` / `ended_at` agrees with the
global model on the numeric-or-missing values the API returns. -/
def build_rec (eid : Nat) (detailF : String → Option Detail) (e : Entry) : Rec :=
  let detail := detailF e.roomId
  { prTarget := .vs ""
    liverName := e.roomName
    accountId := e.accountId
    eventName := match detail with | some dt => dt.eventName | none => .vs ""
    startTime := match detail with | some dt => fmt_time dt.startedAt | none => .tempty
    endTime := match detail with | some dt => fmt_time dt.endedAt | none => .tempty
    rank := e.rank.orDefault (e.position.orDefault (.vs "-"))
    point := e.point.orDefault (e.totalPoint.orDefault (.vi 0))
    note := .vs ""
    linked := .vs "○"
    url := match detail with | some dt => dt.eventUrl | none => .vs ""
    level := quest_of e
    eventId := toString eid
    roomId := e.roomId
    image := match detail with | some dt => dt.image | none => .vs "" }

/-- Model of `process_event_full` (app.py lines 717-765).  When the
operator supplied target rooms (a truthy set), the filter is their
intersection with the managed rooms; the pager receives it only when
it is non-empty, else `None`.  An empty roster yields no records;
otherwise one record per entry.  `none` propagates pager fuel
exhaustion. -/
def process_event_full (rosterF : Nat → Option Page)
    (detailF : String → Option Detail) (eid : Nat) (managedIds : List String)
    (targetRoomIds : Option (List String)) (fuel : Nat) : Option (List Rec) :=
  let filterIds :=
    match targetRoomIds with
    | some ts =>
        if ts.isEmpty then managedIds
        else managedIds.filter (fun r => ts.contains r)
    | none => managedIds
  match fetch_all_pages_entries rosterF
      (if filterIds.isEmpty then none else some filterIds) fuel 1 [] [] with
  | none => none
  | some entries =>
      some (if entries.isEmpty then [] else entries.map (build_rec eid detailF))

/-! ### Merge, prune, sort -/

/-- Key match of the merge mask (app.py line 884):
`(merged_df["event_id"] == eid) & (merged_df["ルームID"] == rid)`. -/
def same_key (nr r : Rec) : Bool :=
  r.eventId == nr.eventId && r.roomId == nr.roomId

/-- Overwrite of the mutable columns on a key match (app.py lines
887-888): 順位, ポイント, レベル, イベント名, 開始日時, 終了日時,
URL.  Every other column keeps the value of the existing row. -/
def update_row (nr r : Rec) : Rec :=
  { r with
    rank := nr.rank
    point := nr.point
    level := nr.level
    eventName := nr.eventName
    startTime := nr.startTime
    endTime := nr.endTime
    url := nr.url }

/-- Update of the first row matching the key (`mask.idxmax()` is the
first index where the mask holds). -/
def update_first (nr : Rec) : List Rec → List Rec
  | [] => []
  | r :: rs =>
      if same_key nr r then update_row nr r :: rs else r :: update_first nr rs

/-- One iteration of the merge loop (app.py lines 881-892) over the
state (rows, updated count, added count). -/
def merge_step : List Rec × Nat × Nat → Rec → List Rec × Nat × Nat
  | (rows, u, a), nr =>
      if rows.any (same_key nr) then (update_first nr rows, u + 1, a)
      else (rows ++ [nr], u, a + 1)

/-- The merge loop over all new records. -/
def merge_loop (existing newRecs : List Rec) : List Rec × Nat × Nat :=
  newRecs.foldl merge_step (existing, 0, 0)

/-- Truthiness of the optional target-room set (`if target_room_ids`). -/
def target_truthy : Option (List String) → Bool
  | none => false
  | some ts => !ts.isEmpty

/-- Model of `keep_row` (app.py lines 904-917): with a truthy target
set, rows of other rooms are always kept; rows of event ids outside
the scanned range are always kept; a row inside the range (and inside
the target set when one was given) is kept only if its key pair was
produced by this scan. -/
def keep_row (scanned : List String) (target : Option (List String))
    (newPairs : List (String × String)) (r : Rec) : Bool :=
  if target_truthy target && !((target.getD []).contains r.roomId) then true
  else if !(scanned.contains r.eventId) then true
  else newPairs.contains (r.eventId, r.roomId)

/-- Value of a decimal digit list, `none` on any non-digit. -/
def digits_val : List Char → Nat → Option Nat
  | [], acc => some acc
  | c :: cs, acc =>
      if 48 ≤ c.toNat ∧ c.toNat ≤ 57 then digits_val cs (acc * 10 + (c.toNat - 48))
      else none

/-- Numeric event-id sort key: `pd.to_numeric(..., errors="coerce")`
on the decimal id strings the snapshot carries (non-numeric ids
coerce to NaN, modelled as `none`). -/
def to_numeric (s : String) : Option Int :=
  match s.data with
  | [] => none
  | cs => (digits_val cs 0).map (fun n => (n : Int))

/-- Code-point lexicographic order on character lists. -/
def lex_le : List Char → List Char → Bool
  | [], _ => true
  | _ :: _, [] => false
  | a :: as, b :: bs =>
      if a.toNat < b.toNat then true
      else if b.toNat < a.toNat then false
      else lex_le as bs

/-- Code-point lexicographic order on strings (the ascending string
order `sort_values` uses for the ルームID tiebreak). -/
def str_le (a b : String) : Bool := lex_le a.data b.data

/-- Descending order on optional sort keys with missing values last. -/
def opt_desc_le : Option Int → Option Int → Bool
  | none, none => true
  | none, some _ => false
  | some _, none => true
  | some x, some y => y ≤ x

/-- Row order of the final sort (app.py lines 931-947): `__end_ts`
(the re-parsed 終了日時) descending, numeric event id descending,
ルームID ascending.  `sort_values` uses an unstable sort, so only the
keys are specified; every claim below is order-independent. -/
def sort_le (a b : Rec) : Bool :=
  let ea := parse_to_ts a.endTime
  let eb := parse_to_ts b.endTime
  if ea = eb then
    let na := to_numeric a.eventId
    let nb := to_numeric b.eventId
    if na = nb then str_le a.roomId b.roomId
    else opt_desc_le na nb
  else opt_desc_le ea eb

/-- The final sort of the merged snapshot. -/
def sort_records (l : List Rec) : List Rec :=
  List.insertionSort (fun a b => sort_le a b = true) l

/-- Counts reported by the update (`updated_rows`, `added_rows`,
`deleted_rows`) together with the published rows. -/
structure MergeResult where
  rows : List Rec
  updated : Nat
  added : Nat
  deleted : Nat
deriving DecidableEq, Repr

/-- Merge-and-save block of the database update (app.py lines
864-947): the merge loop, the `keep_row` pruning pass (applied twice
in the source, lines 919-929; the second pass removes nothing more),
the deleted count `before_count - len(merged_df)`, and the final
three-key sort. -/
def merge_and_prune (existing newRecs : List Rec) (scanned : List String)
    (target : Option (List String)) : MergeResult :=
  let st := merge_loop existing newRecs
  let newPairs := newRecs.map (fun r => (r.eventId, r.roomId))
  let before := st.1.length
  let pruned1 := st.1.filter (keep_row scanned target newPairs)
  let pruned2 := pruned1.filter (keep_row scanned target newPairs)
  { rows := sort_records pruned2
    updated := st.2.1
    added := st.2.2
    deleted := before - pruned2.length }

/-- Outcome of one database-update run: the early stop when the scan
produced no records at all (app.py lines 860-862, `st.stop()` before
any merge), or the merge result. -/
inductive RunResult where
  | stoppedEmpty : RunResult
  | merged (res : MergeResult) : RunResult
deriving DecidableEq, Repr

/-- Collection of the per-event records over the scanned id range
(app.py lines 839-857; the worker pool is modelled sequentially, the
merge result is order-independent for the claims below).  `none`
propagates pager fuel exhaustion. -/
def collect_records (rosterAll : Nat → Nat → Option Page)
    (detailAll : Nat → String → Option Detail) (managedIds : List String)
    (target : Option (List String)) (fuel : Nat) :
    List Nat → Option (List Rec)
  | [] => some []
  | eid :: rest =>
      match process_event_full (rosterAll eid) (detailAll eid) eid managedIds
          target fuel with
      | none => none
      | some recs =>
          match collect_records rosterAll detailAll managedIds target fuel rest with
          | none => none
          | some more => some (recs ++ more)

/-- Model of the database-update run (app.py lines 821-947): scan the
id range, stop early when no records were gathered, otherwise merge
into the existing snapshot with the scanned ids `set(map(str,
event_id_range))` and the target-room set of the operator. -/
def run_db_update (rosterAll : Nat → Nat → Option Page)
    (detailAll : Nat → String → Option Detail) (existing : List Rec)
    (eventIdRange : List Nat) (managedIds : List String)
    (target : Option (List String)) (fuel : Nat) : Option RunResult :=
  match collect_records rosterAll detailAll managedIds target fuel eventIdRange with
  | none => none
  | some allRecords =>
      if allRecords.isEmpty then some .stoppedEmpty
      else
        some (.merged (merge_and_prune existing allRecords
          (eventIdRange.map (fun n => toString n)) target))

/-- Composite keys `(event_id, ルームID)` of a list of rows. -/
def keys_of (l : List Rec) : List (String × String) :=
  l.map (fun r => (r.eventId, r.roomId))

/-! ### Concrete scenario inputs used by the closed theorems -/

/-- Baseline row with default column values. -/
def rec0 : Rec :=
  { prTarget := .vs ""
    liverName := .vs ""
    accountId := .vs ""
    eventName := .vs ""
    startTime := .tempty
    endTime := .tempty
    rank := .vs "-"
    point := .vi 0
    note := .vs ""
    linked := .vs "○"
    url := .vs ""
    level := .vi 0
    eventId := "0"
    roomId := "0"
    image := .vs "" }

/-- Detail endpoint returning nothing (every contribution lookup
fails or lacks an `event` object). -/
def de_none (_eid : Nat) (_rid : String) : Option Detail := none

/-- Snapshot row for event 500, room `"7"`, with a free-text note. -/
def row500 : Rec :=
  { rec0 with eventId := "500", roomId := "7", rank := .vs "3", note := .vs "メモ" }

/-- Roster entry for room `"9"`. -/
def entry9 : Entry :=
  { roomId := "9", roomName := .vs "ルーム9", accountId := .vs "", rank := .vi 2,
    position := .vnone, point := .vi 500, totalPoint := .vnone,
    questLevel := .vnone, eventEntry := none }

/-- Roster entry for room `"7"`. -/
def entry7 : Entry :=
  { roomId := "7", roomName := .vs "", accountId := .vs "", rank := .vi 5,
    position := .vnone, point := .vi 100, totalPoint := .vnone,
    questLevel := .vnone, eventEntry := none }

/-- A verified-empty roster page (last page, no entries). -/
def empty_page : Page :=
  { entries := [], nextPage := .vnone, currentPage := .vi 1, lastPage := .vi 1 }

/-- Roster endpoint: every event has a verified-empty roster. -/
def ro_empty (_eid _page : Nat) : Option Page := some empty_page

/-- Roster endpoint: event 501 has the single participant `"9"`,
every other event has a verified-empty roster. -/
def ro_companion (eid _page : Nat) : Option Page :=
  if eid == 501 then
    some
      { entries := [entry9]
        nextPage := .vnone
        currentPage := .vi 1
        lastPage := .vi 1 }
  else some empty_page

/-- Attempt-level roster endpoint: every request for event 500 raises
(exhausting the retries), event 501 serves the single participant
`"9"` on its first attempt. -/
def attemptsC2 (eid _page : Nat) : Nat → HttpAttempt (Option Page) :=
  fun _ =>
    if eid == 500 then .failed
    else
      .ok (some
        { entries := [entry9]
          nextPage := .vnone
          currentPage := .vi 1
          lastPage := .vi 1 })

/-- Post-retry view of `attemptsC2`. -/
def roC2 (eid page : Nat) : Option Page := roster_page (attemptsC2 eid page)

/-- Roster endpoint: the roster of every event holds exactly room `"7"`. -/
def ro_room7 (_eid _page : Nat) : Option Page :=
  some
    { entries := [entry7]
      nextPage := .vnone
      currentPage := .vi 1
      lastPage := .vi 1 }

/-- Snapshot row for an event outside every scanned range used below. -/
def rowOut : Rec := { rec0 with eventId := "777", roomId := "5", rank := .vs "9" }

/-- Snapshot row for event 600, room `"8"`, with an image URL and a note. -/
def rowC7 : Rec :=
  { rec0 with
    eventId := "600"
    roomId := "8"
    image := .vs "old.png"
    note := .vs "メモ" }

/-- Fetched record for the same key with a different image URL. -/
def nrC7 : Rec :=
  { rec0 with
    eventId := "600"
    roomId := "8"
    image := .vs "new.png"
    rank := .vi 1 }

/-- One-entry page that always advertises a next page
(`next_page = 1`, `current_page = 1`, `last_page = 2`). -/
def adversarial_page : Page :=
  { entries := [entry7], nextPage := .vi 1, currentPage := .vi 1, lastPage := .vi 2 }

/-- Endpoint that reports `has_next_page` truthy with non-empty
entries on every page. -/
def adversarial_roster (_page : Nat) : Option Page := some adversarial_page

/-! ### Calendar round trip -/

theorem yoe_correct (doe : Int) (h0 : 0 ≤ doe) (h1 : doe ≤ 146096) :
    0 ≤ yoeOf doe ∧ yoeOf doe ≤ 399 ∧ encYoe (yoeOf doe) ≤ doe ∧
      doe - encYoe (yoeOf doe) ≤ 365 := by
  unfold yoeOf encYoe
  set e := doe / 1460 with hedef
  have hlo : 0 ≤ e := by omega
  have hhi : e ≤ 100 := by omega
  interval_cases e <;>
    first
    | omega
    | (set f := doe / 36524 with hfdef
       have hf0 : 0 ≤ f := by omega
       have hf1 : f ≤ 4 := by omega
       interval_cases f <;> omega)

theorem daysFromCivil_decode (era yoe mp dd : Int) (hyoe0 : 0 ≤ yoe)
    (hyoe1 : yoe ≤ 399) (hmp0 : 0 ≤ mp) (hmp1 : mp ≤ 11) :
    daysFromCivil
        (if mp + (if mp < 10 then 3 else -9) ≤ 2 then yoe + era * 400 + 1
          else yoe + era * 400)
        (mp + (if mp < 10 then 3 else -9)) dd
      = era * 146097 + (365 * yoe + yoe / 4 - yoe / 100)
          + ((153 * mp + 2) / 5 + dd - 1) - 719468 := by
  unfold daysFromCivil
  dsimp only
  rcases lt_or_le mp 10 with h10 | h10 <;>
    simp only [if_pos h10, if_neg (not_lt.mpr h10)] <;>
    split <;> split <;> omega

theorem daysFromCivil_civilFromDays (z : Int) :
    daysFromCivil (civilFromDays z).1 (civilFromDays z).2.1
      (civilFromDays z).2.2 = z := by
  unfold civilFromDays
  dsimp only
  generalize hdoe : z + 719468 - (z + 719468) / 146097 * 146097 = doe
  generalize hyoe : yoeOf doe = yoe
  generalize hdoy : doe - encYoe yoe = doy
  generalize hmp : (5 * doy + 2) / 153 = mp
  have hy := yoe_correct doe (by omega) (by omega)
  rw [hyoe] at hy
  unfold encYoe at hy hdoy
  rw [daysFromCivil_decode ((z + 719468) / 146097) yoe mp
    (doy - (153 * mp + 2) / 5 + 1) hy.1 hy.2.1 (by omega) (by omega)]
  omega

/-! ### Timestamp normalization claims -/

/-- C9: numeric timestamp parsing treats a value as epoch seconds
unless it exceeds 2×10^10, in which case it is interpreted as epoch
milliseconds and floor-divided by 1000; in particular the parse of
1700000000000 equals the parse of 1700000000. -/
theorem millisecond_disambiguation :
    (∀ n : Int,
        parse_to_ts (.tnum n) = some (if n > 20000000000 then n / 1000 else n)) ∧
      parse_to_ts (.tnum 1700000000000) = parse_to_ts (.tnum 1700000000) := by
  refine ⟨fun n => rfl, ?_⟩
  decide

/-- C6 counterexample: the rendered display string drops seconds, so
the round trip fails on the epoch value 90 (rendered `1970/01/01
09:01` JST, which parses back to 60, not 90). -/
theorem normalization_roundtrip_drops_seconds :
    parse_to_ts (fmt_time (.tnum 90)) = some 60 ∧ (60 : Int) ≠ 90 := by
  constructor
  · decide
  · decide

/-- C6 (amended): for every epoch value `e` in the renderable range
that is a whole number of minutes, normalising the rendered display
string reproduces `e`: `parse_to_ts (fmt_time e) = some e`. -/
theorem normalize_display_roundtrip (e : Int) (h0 : 0 ≤ e)
    (h1 : e ≤ 20000000000) (h60 : e % 60 = 0) :
    parse_to_ts (fmt_time (.tnum e)) = some e := by
  have hday := daysFromCivil_civilFromDays ((e + jstOffset) / 86400)
  unfold fmt_time
  dsimp only
  rw [if_neg (by unfold jstOffset minCivilSec maxCivilSec; omega)]
  rw [if_neg (by omega : ¬e > 20000000000)]
  rcases hcd : civilFromDays ((e + jstOffset) / 86400) with ⟨y, m, d⟩
  rw [hcd] at hday
  dsimp only at hday ⊢
  unfold parse_to_ts
  dsimp only
  rw [hday]
  unfold jstOffset at *
  congr 1
  omega

/-- Closed witness for the C6 round-trip theorem at the minute-aligned
epoch value 1699999980. -/
theorem normalize_display_roundtrip_witness :
    parse_to_ts (fmt_time (.tnum 1699999980)) = some 1699999980 :=
  normalize_display_roundtrip 1699999980 (by decide) (by decide) (by decide)

/-- C8: a record is classified as ongoing iff its end timestamp
normalises to an epoch value strictly greater than `now - 3600`; a
null or unparseable end timestamp is never classified as ongoing. -/
theorem ongoing_grace_classification (v : TVal) (now_ts : Int) :
    (is_ongoing (end_ts v) now_ts = true ↔
      ∃ t, end_ts v = some t ∧ t > now_ts - 3600) ∧
      (end_ts v = none → is_ongoing (end_ts v) now_ts = false) := by
  constructor
  · cases h : end_ts v with
    | none => simp [is_ongoing]
    | some t =>
        simp only [is_ongoing, decide_eq_true_eq, Option.some.injEq]
        constructor
        · exact fun ht => ⟨t, rfl, ht⟩
        · rintro ⟨u, hu, htu⟩
          cases hu
          exact htu
  · intro h
    rw [h]
    rfl

/-- Closed witness for the lifecycle classification: a null end
timestamp is not ongoing, and an end one second past the grace
boundary is. -/
theorem ongoing_grace_classification_witness :
    is_ongoing (end_ts .tnone) 0 = false ∧
      is_ongoing (end_ts (.tnum 96900)) 100000 = true := by
  constructor
  · exact (ongoing_grace_classification .tnone 0).2 rfl
  · exact ((ongoing_grace_classification (.tnum 96900) 100000).1).mpr
      ⟨96900, by decide, by decide⟩

/-! ### Merge invariants -/

theorem keys_of_update_first (nr : Rec) :
    ∀ rows : List Rec, keys_of (update_first nr rows) = keys_of rows := by
  intro rows
  induction rows with
  | nil => rfl
  | cons r rs ih =>
      unfold update_first
      split
      · simp only [keys_of, List.map_cons]
        rfl
      · simp only [keys_of, List.map_cons] at ih ⊢
        rw [ih]

theorem any_same_key_iff (nr : Rec) (rows : List Rec) :
    rows.any (same_key nr) = true ↔ (nr.eventId, nr.roomId) ∈ keys_of rows := by
  simp only [List.any_eq_true, keys_of, List.mem_map, same_key, Bool.and_eq_true,
    beq_iff_eq, Prod.mk.injEq]

theorem keys_nodup_merge_step (st : List Rec × Nat × Nat) (nr : Rec)
    (h : (keys_of st.1).Nodup) : (keys_of (merge_step st nr).1).Nodup := by
  obtain ⟨rows, u, a⟩ := st
  unfold merge_step
  dsimp only at h ⊢
  split
  · rw [keys_of_update_first]
    exact h
  · rename_i hany
    have hnotin : (nr.eventId, nr.roomId) ∉ keys_of rows := by
      rw [← any_same_key_iff]
      simp [hany]
    have : keys_of (rows ++ [nr]) = keys_of rows ++ [(nr.eventId, nr.roomId)] := by
      simp [keys_of]
    rw [this]
    apply List.nodup_append.mpr
    refine ⟨h, List.nodup_singleton _, ?_⟩
    intro p hp hq
    rw [List.mem_singleton] at hq
    subst hq
    exact hnotin hp

theorem keys_nodup_merge_fold :
    ∀ (newRecs : List Rec) (st : List Rec × Nat × Nat),
      (keys_of st.1).Nodup → (keys_of (newRecs.foldl merge_step st).1).Nodup := by
  intro newRecs
  induction newRecs with
  | nil => exact fun st h => h
  | cons nr rest ih =>
      exact fun st h => ih (merge_step st nr) (keys_nodup_merge_step st nr h)

theorem keys_nodup_filter (p : Rec → Bool) (l : List Rec)
    (h : (keys_of l).Nodup) : (keys_of (l.filter p)).Nodup :=
  List.Nodup.sublist ((List.filter_sublist l).map _) h

theorem mem_sort_records (r : Rec) (l : List Rec) :
    r ∈ sort_records l ↔ r ∈ l :=
  (List.perm_insertionSort _ l).mem_iff

theorem keys_nodup_sort (l : List Rec) (h : (keys_of l).Nodup) :
    (keys_of (sort_records l)).Nodup := by
  unfold sort_records keys_of at *
  exact ((List.perm_insertionSort _ l).map _).nodup_iff.mpr h

/-- C4: the merge never creates a duplicate composite key — whenever
the existing snapshot has at most one row per `(event_id, ルームID)`
pair, the merged, pruned and sorted result again has at most one row
per pair. -/
theorem composite_key_uniqueness (existing newRecs : List Rec)
    (scanned : List String) (target : Option (List String))
    (h : (keys_of existing).Nodup) :
    (keys_of (merge_and_prune existing newRecs scanned target).rows).Nodup := by
  unfold merge_and_prune
  dsimp only
  apply keys_nodup_sort
  apply keys_nodup_filter
  apply keys_nodup_filter
  exact keys_nodup_merge_fold newRecs (existing, 0, 0) h

/-- Closed witness for the uniqueness theorem: a merge of duplicate
new records into a two-row snapshot. -/
theorem composite_key_uniqueness_witness :
    (keys_of (merge_and_prune [row500, rowOut] [nrC7, nrC7]
      ["500", "600"] none).rows).Nodup :=
  composite_key_uniqueness [row500, rowOut] [nrC7, nrC7] ["500", "600"] none
    (by decide)

/-- Shared append case of one merge iteration: a new record with no
matching key is appended once and counted as added. -/
theorem merge_step_append (rows : List Rec) (u a : Nat) (nr : Rec)
    (h : rows.any (same_key nr) = false) :
    merge_step (rows, u, a) nr = (rows ++ [nr], u, a + 1) := by
  unfold merge_step
  dsimp only
  rw [if_neg (by simp [h])]

theorem update_first_append (nr : Rec) :
    ∀ (pre : List Rec) (r : Rec) (post : List Rec),
      (∀ p ∈ pre, same_key nr p = false) → same_key nr r = true →
      update_first nr (pre ++ r :: post) = pre ++ update_row nr r :: post := by
  intro pre
  induction pre with
  | nil =>
      intro r post _ hr
      unfold update_first
      simp only [List.nil_append]
      rw [if_pos hr]
  | cons p ps ih =>
      intro r post hpre hr
      have hp : same_key nr p = false := hpre p (List.mem_cons_self p ps)
      unfold update_first
      simp only [List.cons_append]
      rw [if_neg (by simp [hp])]
      rw [ih r post (fun q hq => hpre q (List.mem_cons_of_mem p hq)) hr]

/-- C7 (amended): one merge iteration either appends an unmatched
record (counted as added), or updates the first matching row in place
(counted as updated), overwriting exactly 順位, ポイント, レベル,
イベント名, 開始日時, 終了日時 and URL with the fetched values and
leaving every other column — including 備考, 紐付け, ライバー名,
アカウントID, PR対象, the keys and イベント画像（URL） — unchanged. -/
theorem merge_update_frame (rows : List Rec) (nr : Rec) (u a : Nat) :
    (rows.any (same_key nr) = false →
      merge_step (rows, u, a) nr = (rows ++ [nr], u, a + 1)) ∧
    (∀ (pre : List Rec) (r : Rec) (post : List Rec),
      rows = pre ++ r :: post → same_key nr r = true →
      (∀ p ∈ pre, same_key nr p = false) →
      merge_step (rows, u, a) nr = (pre ++ update_row nr r :: post, u + 1, a) ∧
      (update_row nr r).rank = nr.rank ∧
      (update_row nr r).point = nr.point ∧
      (update_row nr r).level = nr.level ∧
      (update_row nr r).eventName = nr.eventName ∧
      (update_row nr r).startTime = nr.startTime ∧
      (update_row nr r).endTime = nr.endTime ∧
      (update_row nr r).url = nr.url ∧
      (update_row nr r).note = r.note ∧
      (update_row nr r).linked = r.linked ∧
      (update_row nr r).image = r.image ∧
      (update_row nr r).liverName = r.liverName ∧
      (update_row nr r).accountId = r.accountId ∧
      (update_row nr r).prTarget = r.prTarget ∧
      (update_row nr r).eventId = r.eventId ∧
      (update_row nr r).roomId = r.roomId) := by
  constructor
  · exact merge_step_append rows u a nr
  · intro pre r post hrows hr hpre
    subst hrows
    refine ⟨?_, rfl, rfl, rfl, rfl, rfl, rfl, rfl, rfl, rfl, rfl, rfl, rfl,
      rfl, rfl, rfl⟩
    unfold merge_step
    dsimp only
    rw [if_pos (List.any_eq_true.mpr
      ⟨r, by simp, hr⟩)]
    rw [update_first_append nr pre r post hpre hr]

/-- Closed witness for the merge frame theorem: an update of a matched
key and an append of an unmatched key. -/
theorem merge_update_frame_witness :
    merge_step ([rowC7], 0, 0) nrC7 = ([update_row nrC7 rowC7], 1, 0) ∧
      merge_step ([rowOut], 0, 0) nrC7 = ([rowOut, nrC7], 0, 1) := by
  constructor
  · exact ((merge_update_frame [rowC7] nrC7 0 0).2 [] rowC7 [] rfl (by decide)
      (by intro p hp; cases hp)).1
  · exact (merge_update_frame [rowOut] nrC7 0 0).1 (by decide)

/-- C7 counterexample: the update column list omits イベント画像
（URL）, so a matched row keeps its old image URL even when the
fetched record carries a new one. -/
theorem image_url_not_overwritten :
    merge_and_prune [rowC7] [nrC7] ["600"] none
      = { rows := [{ rowC7 with rank := .vi 1 }]
          updated := 1
          added := 0
          deleted := 0 } ∧
      nrC7.image = .vs "new.png" ∧
      ({ rowC7 with rank := .vi 1 } : Rec).image = .vs "old.png" ∧
      (RVal.vs "old.png") ≠ (RVal.vs "new.png") := by
  refine ⟨by decide, by decide, by decide, by decide⟩

/-! ### Target filter degradation -/

/-- C10: when the non-empty target-room set of the operator has empty
intersection with the managed rooms, `process_event_full` passes no
filter at all to the page walker (the empty intersection is replaced
by `None`), so the walk returns every roster participant and one
record is built per participant; the merge then appends any such
record whose key is not already present. -/
theorem untracked_rooms_full_roster (rosterF : Nat → Option Page)
    (detailF : String → Option Detail) (eid : Nat) (managedIds : List String)
    (ts : List String) (fuel : Nat) (hts : ts ≠ [])
    (hdisj : managedIds.filter (fun r => ts.contains r) = []) :
    (process_event_full rosterF detailF eid managedIds (some ts) fuel
      = (fetch_all_pages_entries rosterF none fuel 1 [] []).map
          (fun entries =>
            if entries.isEmpty then [] else entries.map (build_rec eid detailF))) ∧
    (∀ (rows : List Rec) (u a : Nat) (nr : Rec),
      rows.any (same_key nr) = false →
      merge_step (rows, u, a) nr = (rows ++ [nr], u, a + 1)) := by
  constructor
  · have hni : ts.isEmpty = false := by
      cases ts with
      | nil => exact absurd rfl hts
      | cons a l => rfl
    unfold process_event_full
    dsimp only
    simp only [hni, hdisj, Bool.false_eq_true, if_false, List.isEmpty_nil,
      if_true]
    cases hfe : fetch_all_pages_entries rosterF none fuel 1 [] [] with
    | none => rfl
    | some entries => rfl
  · exact fun rows u a nr h => merge_step_append rows u a nr h

/-- Closed witness of the filter degradation: managed room `"1"`,
target room `"999"`, and a roster containing only room `"7"` — which
is in neither set — still yields a record, which the merge appends. -/
theorem untracked_rooms_full_roster_witness :
    process_event_full (ro_room7 500) (de_none 500) 500 ["1"] (some ["999"]) 32
        = some [build_rec 500 (de_none 500) entry7] ∧
      merge_step ([rowOut], 0, 0) (build_rec 500 (de_none 500) entry7)
        = ([rowOut, build_rec 500 (de_none 500) entry7], 0, 1) ∧
      ("7" ∉ (["1"] : List String)) ∧ ("7" ∉ (["999"] : List String)) := by
  have h := untracked_rooms_full_roster (ro_room7 500) (de_none 500) 500 ["1"]
    ["999"] 32 (by decide) (by decide)
  refine ⟨?_, ?_, by decide, by decide⟩
  · rw [h.1]
    decide
  · exact h.2 [rowOut] 0 0 (build_rec 500 (de_none 500) entry7) (by decide)

/-! ### Pruning scope safety -/

theorem process_event_full_eventId (rosterF : Nat → Option Page)
    (detailF : String → Option Detail) (eid : Nat) (managedIds : List String)
    (target : Option (List String)) (fuel : Nat) (recs : List Rec)
    (h : process_event_full rosterF detailF eid managedIds target fuel
      = some recs) :
    ∀ rec ∈ recs, rec.eventId = toString eid := by
  unfold process_event_full at h
  dsimp only at h
  split at h
  · exact absurd h (by simp)
  · rename_i entries hfe
    injection h with h2
    subst h2
    intro rec hrec
    split at hrec
    · cases hrec
    · obtain ⟨e, _, rfl⟩ := List.mem_map.mp hrec
      rfl

theorem collect_records_eventId (rosterAll : Nat → Nat → Option Page)
    (detailAll : Nat → String → Option Detail) (managedIds : List String)
    (target : Option (List String)) (fuel : Nat) :
    ∀ (range : List Nat) (allR : List Rec),
      collect_records rosterAll detailAll managedIds target fuel range
        = some allR →
      ∀ rec ∈ allR, rec.eventId ∈ range.map (fun n => toString n) := by
  intro range
  induction range with
  | nil =>
      intro allR h rec hrec
      unfold collect_records at h
      injection h with h2
      subst h2
      cases hrec
  | cons eid rest ih =>
      intro allR h rec hrec
      unfold collect_records at h
      split at h
      · exact absurd h (by simp)
      · rename_i recs hproc
        split at h
        · exact absurd h (by simp)
        · rename_i more hmore
          injection h with h2
          subst h2
          simp only [List.map_cons, List.mem_cons]
          rcases List.mem_append.mp hrec with hl | hr
          · exact Or.inl (process_event_full_eventId _ _ _ _ _ _ _ hproc rec hl)
          · exact Or.inr (by simpa using ih more hmore rec hr)

theorem mem_update_first (nr r : Rec) (h : same_key nr r = false) :
    ∀ rows : List Rec, r ∈ rows → r ∈ update_first nr rows := by
  intro rows
  induction rows with
  | nil => intro h2; cases h2
  | cons p ps ih =>
      intro h2
      unfold update_first
      split
      · rename_i hp
        rcases List.mem_cons.mp h2 with rfl | hmem
        · exact absurd hp (by simp [h])
        · exact List.mem_cons_of_mem _ hmem
      · rcases List.mem_cons.mp h2 with rfl | hmem
        · exact List.mem_cons_self _ _
        · exact List.mem_cons_of_mem _ (ih hmem)

theorem mem_merge_fold (r : Rec) :
    ∀ (newRecs : List Rec) (st : List Rec × Nat × Nat),
      (∀ nr ∈ newRecs, same_key nr r = false) → r ∈ st.1 →
      r ∈ (newRecs.foldl merge_step st).1 := by
  intro newRecs
  induction newRecs with
  | nil => exact fun st _ h => h
  | cons nr rest ih =>
      intro st hall hmem
      have h1 : r ∈ (merge_step st nr).1 := by
        obtain ⟨rows, u, a⟩ := st
        unfold merge_step
        dsimp only at hmem ⊢
        split
        · exact mem_update_first nr r (hall nr (List.mem_cons_self _ _)) rows hmem
        · exact List.mem_append_left _ hmem
      exact ih (merge_step st nr) (fun x hx => hall x (List.mem_cons_of_mem _ hx)) h1

theorem key_mem_update_first (nr : Rec) :
    ∀ (rows : List Rec) (r : Rec), r ∈ rows →
      ∃ q ∈ update_first nr rows, q.eventId = r.eventId ∧ q.roomId = r.roomId := by
  intro rows
  induction rows with
  | nil => intro r h; cases h
  | cons p ps ih =>
      intro r h
      unfold update_first
      split
      · rcases List.mem_cons.mp h with rfl | hmem
        · exact ⟨update_row nr r, List.mem_cons_self _ _, rfl, rfl⟩
        · exact ⟨r, List.mem_cons_of_mem _ hmem, rfl, rfl⟩
      · rcases List.mem_cons.mp h with rfl | hmem
        · exact ⟨r, List.mem_cons_self _ _, rfl, rfl⟩
        · obtain ⟨q, hq, he⟩ := ih r hmem
          exact ⟨q, List.mem_cons_of_mem _ hq, he⟩

theorem key_mem_merge_fold :
    ∀ (newRecs : List Rec) (st : List Rec × Nat × Nat) (r : Rec), r ∈ st.1 →
      ∃ q ∈ (newRecs.foldl merge_step st).1,
        q.eventId = r.eventId ∧ q.roomId = r.roomId := by
  intro newRecs
  induction newRecs with
  | nil => exact fun st r h => ⟨r, h, rfl, rfl⟩
  | cons nr rest ih =>
      intro st r h
      have h1 : ∃ q ∈ (merge_step st nr).1,
          q.eventId = r.eventId ∧ q.roomId = r.roomId := by
        obtain ⟨rows, u, a⟩ := st
        unfold merge_step
        dsimp only at h ⊢
        split
        · exact key_mem_update_first nr rows r h
        · exact ⟨r, List.mem_append_left _ h, rfl, rfl⟩
      obtain ⟨q, hq, he1, he2⟩ := h1
      obtain ⟨q2, hq2, hf1, hf2⟩ := ih (merge_step st nr) q hq
      exact ⟨q2, hq2, hf1.trans he1, hf2.trans he2⟩

theorem keep_row_of_unscanned (scanned : List String)
    (target : Option (List String)) (newPairs : List (String × String))
    (r : Rec) (h : scanned.contains r.eventId = false) :
    keep_row scanned target newPairs r = true := by
  unfold keep_row
  split
  · rfl
  · have hc : (!(scanned.contains r.eventId)) = true := by rw [h]; rfl
    rw [if_pos hc]

theorem keep_row_of_filtered (scanned : List String)
    (newPairs : List (String × String)) (ts : List String) (r : Rec)
    (hts : ts ≠ []) (h : ts.contains r.roomId = false) :
    keep_row scanned (some ts) newPairs r = true := by
  cases ts with
  | nil => exact absurd rfl hts
  | cons a l =>
      unfold keep_row
      have hc : (target_truthy (some (a :: l)) &&
          !((some (a :: l) : Option (List String)).getD []).contains r.roomId)
            = true := by
        simp only [Option.getD_some]
        rw [h]
        rfl
      rw [if_pos hc]

/-- C1 (amended): for every merge a rebuild performs, an existing row
whose event id is outside the scanned range survives unchanged in the
published rows, and — when a non-empty target-room set was supplied —
an existing row of any other room is never deleted: a row with its
key is still present (its mutable fields may have been refreshed when
the degraded filter of the C10 theorem let the scan rediscover that
key). -/
theorem pruning_scope_safety (rosterAll : Nat → Nat → Option Page)
    (detailAll : Nat → String → Option Detail) (existing : List Rec)
    (eventIdRange : List Nat) (managedIds : List String)
    (target : Option (List String)) (fuel : Nat) (res : MergeResult)
    (hrun : run_db_update rosterAll detailAll existing eventIdRange managedIds
      target fuel = some (.merged res))
    (r : Rec) (hr : r ∈ existing) :
    (r.eventId ∉ eventIdRange.map (fun n => toString n) → r ∈ res.rows) ∧
    (∀ ts : List String, target = some ts → ts ≠ [] →
      ts.contains r.roomId = false →
      ∃ q ∈ res.rows, q.eventId = r.eventId ∧ q.roomId = r.roomId) := by
  unfold run_db_update at hrun
  split at hrun
  · exact absurd hrun (by simp)
  · rename_i allR hcol
    split at hrun
    · exact absurd hrun (by simp)
    · injection hrun with h2
      injection h2 with h3
      subst h3
      constructor
      · intro hout
        have hall : ∀ nr ∈ allR, same_key nr r = false := by
          intro nr hnr
          have hin := collect_records_eventId rosterAll detailAll managedIds
            target fuel eventIdRange allR hcol nr hnr
          have hne2 : ¬(r.eventId = nr.eventId) := fun he => hout (he ▸ hin)
          unfold same_key
          simp [hne2]
        have h1 : r ∈ (merge_loop existing allR).1 :=
          mem_merge_fold r allR (existing, 0, 0) hall hr
        have hkeep : ∀ newPairs : List (String × String),
            keep_row (eventIdRange.map (fun n => toString n)) target newPairs r
              = true := by
          intro newPairs
          apply keep_row_of_unscanned
          rw [← Bool.not_eq_true]
          simpa using hout
        unfold merge_and_prune
        dsimp only
        rw [mem_sort_records]
        exact List.mem_filter.mpr
          ⟨List.mem_filter.mpr ⟨h1, hkeep _⟩, hkeep _⟩
      · intro ts hts htsne hcontains
        subst hts
        obtain ⟨q, hq, he1, he2⟩ :=
          key_mem_merge_fold allR (existing, 0, 0) r hr
        have hkeep : ∀ newPairs : List (String × String),
            keep_row (eventIdRange.map (fun n => toString n)) (some ts)
              newPairs q = true := by
          intro newPairs
          exact keep_row_of_filtered _ _ ts q htsne (by rw [he2]; exact hcontains)
        refine ⟨q, ?_, he1, he2⟩
        unfold merge_and_prune
        dsimp only
        rw [mem_sort_records]
        exact List.mem_filter.mpr
          ⟨List.mem_filter.mpr ⟨hq, hkeep _⟩, hkeep _⟩

/-- Closed witness for the pruning-scope theorem: a rebuild over range
{500} with target room `"999"` keeps an unrelated row of event 777
unchanged and keeps the out-of-target room key present. -/
theorem pruning_scope_safety_witness :
    rowOut ∈ ({ rows := [rowOut, build_rec 500 (de_none 500) entry7]
                updated := 0
                added := 1
                deleted := 0 } : MergeResult).rows ∧
      ∃ q ∈ ({ rows := [rowOut, build_rec 500 (de_none 500) entry7]
               updated := 0
               added := 1
               deleted := 0 } : MergeResult).rows,
        q.eventId = rowOut.eventId ∧ q.roomId = rowOut.roomId := by
  have h := pruning_scope_safety ro_room7 de_none [rowOut] [500] ["1"]
    (some ["999"]) 32
    { rows := [rowOut, build_rec 500 (de_none 500) entry7]
      updated := 0
      added := 1
      deleted := 0 }
    (by decide) rowOut (by decide)
  exact ⟨h.1 (by decide), h.2 ["999"] rfl (by decide) (by decide)⟩

/-- C1 counterexample: in a rebuild over range {500} with the supplied
target filter {"999"} (empty intersection with the managed rooms), the
existing row of room `"7"` — outside the target filter — is kept by
pruning but does not survive the merge unchanged: its 順位 and
ポイント are overwritten from the rediscovered roster entry. -/
theorem filtered_room_row_updated :
    run_db_update ro_room7 de_none [row500] [500] ["1"] (some ["999"]) 32
      = some (.merged
        { rows := [{ row500 with rank := .vi 5, point := .vi 100 }]
          updated := 1
          added := 0
          deleted := 0 }) ∧
      ({ row500 with rank := .vi 5, point := .vi 100 } : Rec) ≠ row500 ∧
      (["999"] : List String).contains row500.roomId = false := by
  refine ⟨by decide, by decide, by decide⟩

/-! ### Pager boundedness -/

theorem adversarial_no_stop :
    ∀ (fuel page : Nat) (seen : List Nat) (entries : List Entry),
      (∀ q ∈ seen, q < page) →
      fetch_all_pages_entries adversarial_roster none fuel page seen entries
        = none := by
  intro fuel
  induction fuel with
  | zero => intro page seen entries _; rfl
  | succ n ih =>
      intro page seen entries hseen
      unfold fetch_all_pages_entries adversarial_roster
      dsimp only
      rw [if_neg (fun hmem => absurd (hseen page hmem) (lt_irrefl page))]
      rw [if_neg (by decide)]
      apply ih
      intro q hq
      rcases List.mem_cons.mp hq with rfl | h2
      · exact Nat.lt_succ_self q
      · exact Nat.lt_succ_of_lt (hseen q h2)

/-- C5: the page walk of `fetch_all_pages_entries` has no `max_pages`
bound — against an endpoint that always reports a truthy `next_page`
with `current_page ≠ last_page` and non-empty entries, the loop is
still running after any number of page requests (the `seen_pages`
defence never fires because the page counter only increments). -/
theorem pager_unbounded_no_max_pages :
    ∀ fuel : Nat,
      fetch_all_pages_entries adversarial_roster none fuel 1 [] [] = none :=
  fun fuel =>
    adversarial_no_stop fuel 1 [] [] (fun q hq => absurd hq (List.not_mem_nil q))

/-! ### Scan-failure pruning and the end-to-end deletion scenario -/

/-- C2: the pruning range is the whole scanned numeric range even for
an event id whose every fetch attempt failed — after the retries are
exhausted the pager reports no data for event 500, yet the existing
row (500, "7") is deleted by the merge because event 501 contributed a
record and the scan range included 500. -/
theorem failed_event_rows_still_pruned :
    http_get_json (attemptsC2 500 1) 0 3 = none ∧
      run_db_update roC2 de_none [row500] [500, 501] ["7", "9"] none 32
        = some (.merged
          { rows := [build_rec 501 (de_none 501) entry9]
            updated := 0
            added := 1
            deleted := 1 }) ∧
      ([build_rec 501 (de_none 501) entry9].filter
        (fun r => r.eventId == "500")) = [] := by
  refine ⟨by decide, by decide, by decide⟩

/-- C3 counterexample: with the starting snapshot {(500, "7")}, a
rebuild that scans exactly {500} and receives an empty roster gathers
no records at all and stops before any merge — it never reports
`deleted = 1`. -/
theorem empty_scan_stops_without_merge :
    run_db_update ro_empty de_none [row500] [500] ["7"] none 32
        = some .stoppedEmpty ∧
      ∀ res : MergeResult,
        run_db_update ro_empty de_none [row500] [500] ["7"] none 32
          ≠ some (.merged res) := by
  have h0 : run_db_update ro_empty de_none [row500] [500] ["7"] none 32
      = some .stoppedEmpty := by decide
  refine ⟨h0, fun res h => ?_⟩
  rw [h0] at h
  exact absurd h (by simp)

/-- C3 (amended): the same starting snapshot, with the scan extended
to {500, 501} so that event 501 contributes a record and the
empty-scan early stop is not taken: the merge completes with
`deleted = 1` and the published snapshot has zero rows for event
500. -/
theorem stale_row_deleted_with_companion_event :
    run_db_update ro_companion de_none [row500] [500, 501] ["7", "9"] none 32
        = some (.merged
          { rows := [build_rec 501 (de_none 501) entry9]
            updated := 0
            added := 1
            deleted := 1 }) ∧
      ([build_rec 501 (de_none 501) entry9].filter
        (fun r => r.eventId == "500")) = [] := by
  refine ⟨by decide, by decide⟩

end SrEvent
